import Mathlib

/-!
Verification development for the idif2024 PET input-function modeling code.

Shallow embedding of: the float pipeline of the likelihood evaluators
(Artery.loglike in src/Artery.py, Boxcar.loglike in src/Boxcar.py), the
forward-model curves (Artery.solution_1bolus, Artery.solution_ss,
Artery.solution_4bolus), the prior transforms and their tracer dispatch,
the legacy solver wrapper (DynestySolverLegacy.run_nested_for_list and
DynestySolverLegacy.quantile), and the batch aggregation loops of main4.py
and main6.py.

Modeling conventions: numpy float64 values flowing through the likelihood
are modeled by `PyFloat` (a finite rational, NaN, or one of the two
infinities) with IEEE-style propagation of the special values; signed zero
and rounding are not modeled, and the transcendental `np.log` is supplied
as a function parameter `logFin` giving its value at finite positive
arguments.  The forward-model curves, whose claims are about real
inequalities, are embedded over the real numbers with `Real.rpow` and
`Real.exp` (the source evaluates powers in the complex domain and takes
the real part, which on the clipped nonnegative bases used here equals the
real power).  Python exceptions are modeled with `Except PyErr`, and numpy
arrays by lists, with in-place slot assignment made explicit.
-/

/-- A numpy float64 value as observed by the likelihood evaluators: a
finite rational, NaN, +inf or -inf. -/
inductive PyFloat where
  | fin (q : ℚ)
  | nan
  | inf
  | ninf
deriving DecidableEq

namespace PyFloat

/-- Result of np.isfinite on a scalar. -/
def isFinite : PyFloat → Bool
  | .fin _ => true
  | _ => false

/-- IEEE-style addition with special values (signed zero ignored). -/
def add : PyFloat → PyFloat → PyFloat
  | .nan, _ => .nan
  | _, .nan => .nan
  | .fin a, .fin b => .fin (a + b)
  | .fin _, .inf => .inf
  | .fin _, .ninf => .ninf
  | .inf, .fin _ => .inf
  | .ninf, .fin _ => .ninf
  | .inf, .inf => .inf
  | .inf, .ninf => .nan
  | .ninf, .inf => .nan
  | .ninf, .ninf => .ninf

/-- IEEE-style subtraction with special values. -/
def sub : PyFloat → PyFloat → PyFloat
  | .nan, _ => .nan
  | _, .nan => .nan
  | .fin a, .fin b => .fin (a - b)
  | .fin _, .inf => .ninf
  | .fin _, .ninf => .inf
  | .inf, .fin _ => .inf
  | .ninf, .fin _ => .ninf
  | .inf, .inf => .nan
  | .inf, .ninf => .inf
  | .ninf, .inf => .ninf
  | .ninf, .ninf => .nan

/-- IEEE-style multiplication with special values. -/
def mul : PyFloat → PyFloat → PyFloat
  | .nan, _ => .nan
  | _, .nan => .nan
  | .fin a, .fin b => .fin (a * b)
  | .fin a, .inf => if 0 < a then .inf else if a < 0 then .ninf else .nan
  | .fin a, .ninf => if 0 < a then .ninf else if a < 0 then .inf else .nan
  | .inf, .fin b => if 0 < b then .inf else if b < 0 then .ninf else .nan
  | .ninf, .fin b => if 0 < b then .ninf else if b < 0 then .inf else .nan
  | .inf, .inf => .inf
  | .inf, .ninf => .ninf
  | .ninf, .inf => .ninf
  | .ninf, .ninf => .inf

/-- IEEE-style division with special values (divisor zero treated as +0,
matching the numpy behavior under np.seterr over/under/invalid = ignore
set by DynestySolverLegacy). -/
def div : PyFloat → PyFloat → PyFloat
  | .nan, _ => .nan
  | _, .nan => .nan
  | .fin a, .fin b =>
      if b = 0 then (if a = 0 then .nan else if 0 < a then .inf else .ninf)
      else .fin (a / b)
  | .fin _, .inf => .fin 0
  | .fin _, .ninf => .fin 0
  | .inf, .fin b => if b < 0 then .ninf else .inf
  | .ninf, .fin b => if b < 0 then .inf else .ninf
  | .inf, .inf => .nan
  | .inf, .ninf => .nan
  | .ninf, .inf => .nan
  | .ninf, .ninf => .nan

/-- Squaring, as written `x ** 2` in the source. -/
def sq (x : PyFloat) : PyFloat := x.mul x

/-- Result of np.sum over a 1-D array (empty sum is 0). -/
def sum (l : List PyFloat) : PyFloat := l.foldr add (.fin 0)

/-- Natural logarithm on the float model.  The transcendental finite case
is supplied by `logFin`; the special values follow numpy: log of NaN is
NaN, log inf = inf, log of a negative value is NaN, log 0 = -inf. -/
def logWith (logFin : ℚ → ℚ) : PyFloat → PyFloat
  | .nan => .nan
  | .inf => .inf
  | .ninf => .nan
  | .fin q => if 0 < q then .fin (logFin q) else if q = 0 then .ninf else .nan

end PyFloat

/-- The IEEE double value of np.pi, as an exact rational. -/
def npPi : ℚ := 884279719003555 / 281474976710656

/-- Element v[-1] of a numpy vector (NaN stands in for the IndexError on an
empty vector, which cannot occur for the 14-dimensional vectors used). -/
def lastElem (v : List PyFloat) : PyFloat := (v.getLast?).getD .nan

namespace Artery

/-- Raw Gaussian log-likelihood computed by Artery.loglike
(src/Artery.py lines 162-167) before the finiteness guard:
residsq = (rho_pred - rho) ** 2 / sigma ** 2 elementwise, then
-0.5 * np.sum(residsq + np.log(2 * np.pi * sigma ** 2)), where
sigma = v[-1], rho_pred is the first component returned by the subclass
signalmodel, and rho is data["rho"].  `logFin` supplies the finite values
of np.log (see PyFloat.logWith). -/
def rawLoglike (logFin : ℚ → ℚ) (rho_pred rho : List PyFloat) (sigma : PyFloat) : PyFloat :=
  let residsq := List.zipWith (fun p o => ((p.sub o).sq).div sigma.sq) rho_pred rho
  let logterm := PyFloat.logWith logFin
    (((PyFloat.fin 2).mul (.fin npPi)).mul sigma.sq)
  (PyFloat.fin (-(1/2))).mul (PyFloat.sum (residsq.map (fun r => r.add logterm)))

/-- Artery.loglike (src/Artery.py lines 162-172): computes the raw
Gaussian log-likelihood and replaces any non-finite result by the finite
sentinel -1e300.  Artery is abstract: the subclass signalmodel is the
function `sm`, of which loglike uses the first returned component
(the prediction rho_pred); `rho` is the observed curve from self.data(v). -/
def loglike (logFin : ℚ → ℚ) (sm : List PyFloat → List PyFloat)
    (rho : List PyFloat) (v : List PyFloat) : PyFloat :=
  if (rawLoglike logFin (sm v) rho (lastElem v)).isFinite then
    rawLoglike logFin (sm v) rho (lastElem v)
  else .fin (-(10 ^ 300 : ℚ))

end Artery

/-- Python exception classes arising in the modelled fragments.
`otherError` stands for any exception class other than the named ones
(for example ValueError, IndexError or AttributeError). -/
inductive PyErr where
  | typeError
  | keyError
  | fileNotFound
  | otherError
deriving DecidableEq

/-- Element v[i] of a numpy vector (NaN stands in for the out-of-range
IndexError, which cannot occur for the 14-dimensional vectors used). -/
def elemAt (v : List PyFloat) (i : ℕ) : PyFloat := (v.get? i).getD .nan

namespace Boxcar

/-- Number of positional parameters of Artery.solution_3bolus
(src/Artery.py line 425: t, t_0, tau_2, a, b, p, dp_2, g, f_2, f_ss),
the definition Boxcar inherits unchanged. -/
def solution_3bolus_paramCount : ℕ := 10

/-- The positional argument tuple that Boxcar.signalmodel passes at
src/Boxcar.py line 141:
(t_ideal, t_0, tau_2, tau_3, a, b, p, dp_2, dp_3, g, f_2, f_3, f_ss),
with t_0 = v[0], tau_2 = v[1], tau_3 = v[2], a = v[3], b = 1/v[4],
p = v[5], dp_2 = v[6], dp_3 = v[7], g = 1/v[8], f_2 = v[9], f_3 = v[10],
f_ss = v[11].  The first entry is the dense time array, the rest are
scalars; `Sum` keeps the two apart. -/
def signalmodel_args (t_ideal : List PyFloat) (v : List PyFloat) :
    List (List PyFloat ⊕ PyFloat) :=
  [Sum.inl t_ideal,
   Sum.inr (elemAt v 0), Sum.inr (elemAt v 1), Sum.inr (elemAt v 2),
   Sum.inr (elemAt v 3), Sum.inr ((PyFloat.fin 1).div (elemAt v 4)),
   Sum.inr (elemAt v 5), Sum.inr (elemAt v 6), Sum.inr (elemAt v 7),
   Sum.inr ((PyFloat.fin 1).div (elemAt v 8)),
   Sum.inr (elemAt v 9), Sum.inr (elemAt v 10), Sum.inr (elemAt v 11)]

/-- Boxcar.signalmodel (src/Boxcar.py lines 123-146).  After computing
t_ideal = Boxcar.data2t(data) and unpacking v, the body calls
Boxcar.solution_3bolus with the 13 positional arguments of
`signalmodel_args`; binding them against the 10 positional parameters of
the inherited Artery.solution_3bolus (no defaults, no varargs) raises
TypeError unless the counts agree.  The success branch is unreachable
(13 arguments never bind to 10 parameters), so the remainder of the body
(apply_boxcar, renormalization) is never executed; the placeholder value
there is arbitrary. -/
def signalmodel (t_ideal : List PyFloat) (v : List PyFloat) :
    Except PyErr (List PyFloat × List PyFloat × List PyFloat) :=
  if (signalmodel_args t_ideal v).length = solution_3bolus_paramCount then
    .ok ([], [], t_ideal)
  else
    .error .typeError

/-- Boxcar.loglike (src/Boxcar.py lines 92-102): unpacks the result of
Boxcar.signalmodel (an exception there propagates), then computes the
same guarded Gaussian log-likelihood as Artery.loglike against the
module-level RHO (here `rho`), with sigma = v[-1]. -/
def loglike (logFin : ℚ → ℚ) (t_ideal : List PyFloat)
    (rho : List PyFloat) (v : List PyFloat) : Except PyErr PyFloat := do
  let (rho_pred, _, _) ← signalmodel t_ideal v
  let sigma := lastElem v
  let raw := Artery.rawLoglike logFin rho_pred rho sigma
  pure (if raw.isFinite then raw else .fin (-(10 ^ 300 : ℚ)))

end Boxcar

/-- In-place numpy slot assignment arr[i] = x on a 1-D array of rationals
(prior-transform inputs and outputs are finite unit-hypercube values, so
the special float values play no role here). -/
def npSet (arr : List ℚ) (i : ℕ) (x : ℚ) : List ℚ := arr.set i x

/-- Read of arr[i] on a 1-D rational array (0 stands in for the
out-of-range IndexError, which cannot occur for 14-element vectors). -/
def npGet (arr : List ℚ) (i : ℕ) : ℚ := arr.getD i 0

namespace Artery

/-- Artery.sigma (src/Artery.py lines 400-402). -/
def sigma : ℚ := 0.1

/-- Buffer contents after Artery.prior_transform_default
(src/Artery.py lines 381-398) runs on the array `u`.  The statement
v = u binds v to the same array object as u, so the fourteen statements
v[i] = u[i] * scale + offset execute sequentially on one shared buffer;
each right-hand side reads slot i before overwriting it. -/
def prior_transform_default_run (u : List ℚ) : List ℚ :=
  let a := u
  let a := npSet a 0 (npGet a 0 * 60)
  let a := npSet a 1 (npGet a 1 * 60)
  let a := npSet a 2 (npGet a 2 * 60)
  let a := npSet a 3 (npGet a 3 * 20)
  let a := npSet a 4 (npGet a 4 * 30 + 1)
  let a := npSet a 5 (npGet a 5 * 9.75 + 0.25)
  let a := npSet a 6 (npGet a 6 * 10 - 10)
  let a := npSet a 7 (npGet a 7 * 10 - 10)
  let a := npSet a 8 (npGet a 8 * 300 + 0.01)
  let a := npSet a 9 (npGet a 9 * 0.5)
  let a := npSet a 10 (npGet a 10 * 0.25)
  let a := npSet a 11 (npGet a 11 * 0.25)
  let a := npSet a 12 (npGet a 12 * 4 + 0.5)
  let a := npSet a 13 (npGet a 13 * sigma)
  a

/-- Artery.prior_transform_default as seen by the caller: the pair
(returned v, contents of the callers array u after the call).  The two
components are the same buffer because v aliases u. -/
def prior_transform_default (u : List ℚ) : List ℚ × List ℚ :=
  (prior_transform_default_run u, prior_transform_default_run u)

/-- Buffer contents after Artery.prior_transform_co
(src/Artery.py lines 343-360); aliasing as in
`prior_transform_default_run`, with the co/oc table for slots 9-11. -/
def prior_transform_co_run (u : List ℚ) : List ℚ :=
  let a := u
  let a := npSet a 0 (npGet a 0 * 60)
  let a := npSet a 1 (npGet a 1 * 60)
  let a := npSet a 2 (npGet a 2 * 60)
  let a := npSet a 3 (npGet a 3 * 20)
  let a := npSet a 4 (npGet a 4 * 30 + 1)
  let a := npSet a 5 (npGet a 5 * 9.75 + 0.25)
  let a := npSet a 6 (npGet a 6 * 10 - 10)
  let a := npSet a 7 (npGet a 7 * 10 - 10)
  let a := npSet a 8 (npGet a 8 * 300 + 0.01)
  let a := npSet a 9 (npGet a 9 * 0.75 + 0.25)
  let a := npSet a 10 (npGet a 10 * 0.75)
  let a := npSet a 11 (npGet a 11 * 0.75)
  let a := npSet a 12 (npGet a 12 * 4 + 0.5)
  let a := npSet a 13 (npGet a 13 * sigma)
  a

/-- Artery.prior_transform_co as seen by the caller (aliased pair). -/
def prior_transform_co (u : List ℚ) : List ℚ × List ℚ :=
  (prior_transform_co_run u, prior_transform_co_run u)

/-- Buffer contents after Artery.prior_transform_oo
(src/Artery.py lines 362-379); aliasing as in
`prior_transform_default_run`, with the oo table for slots 9-11. -/
def prior_transform_oo_run (u : List ℚ) : List ℚ :=
  let a := u
  let a := npSet a 0 (npGet a 0 * 60)
  let a := npSet a 1 (npGet a 1 * 60)
  let a := npSet a 2 (npGet a 2 * 60)
  let a := npSet a 3 (npGet a 3 * 20)
  let a := npSet a 4 (npGet a 4 * 30 + 1)
  let a := npSet a 5 (npGet a 5 * 9.75 + 0.25)
  let a := npSet a 6 (npGet a 6 * 10 - 10)
  let a := npSet a 7 (npGet a 7 * 10 - 10)
  let a := npSet a 8 (npGet a 8 * 300 + 0.01)
  let a := npSet a 9 (npGet a 9 * 0.75 + 0.25)
  let a := npSet a 10 (npGet a 10 * 0.5)
  let a := npSet a 11 (npGet a 11 * 0.25)
  let a := npSet a 12 (npGet a 12 * 4 + 0.5)
  let a := npSet a 13 (npGet a 13 * sigma)
  a

/-- Artery.prior_transform_oo as seen by the caller (aliased pair). -/
def prior_transform_oo (u : List ℚ) : List ℚ × List ℚ :=
  (prior_transform_oo_run u, prior_transform_oo_run u)

/-- Artery.prior_transform (src/Artery.py lines 224-229): selects the
prior-transform function from the tracer tag through a dictionary lookup
whose .get call falls back to Artery.prior_transform_default for any key
other than "co", "oc" and "oo". -/
def prior_transform (tracer : String) : List ℚ → List ℚ × List ℚ :=
  if tracer = "co" then prior_transform_co
  else if tracer = "oc" then prior_transform_co
  else if tracer = "oo" then prior_transform_oo
  else prior_transform_default

end Artery

namespace Boxcar

/-- Buffer contents after Boxcar.prior_transform
(src/Boxcar.py lines 104-121); the same v = u aliasing as the Artery
transforms, with the Boxcar scale/offset table. -/
def prior_transform_run (u : List ℚ) : List ℚ :=
  let a := u
  let a := npSet a 0 (npGet a 0 * 30 + 5)
  let a := npSet a 1 (npGet a 1 * 20 + 5)
  let a := npSet a 2 (npGet a 2 * 20 + 5)
  let a := npSet a 3 (npGet a 3 * 5)
  let a := npSet a 4 (npGet a 4 * 10 + 0.1)
  let a := npSet a 5 (npGet a 5 * 3 + 0.5)
  let a := npSet a 6 (npGet a 6 * 0.05 - 0.025)
  let a := npSet a 7 (npGet a 7 * 0.05 - 0.025)
  let a := npSet a 8 (npGet a 8 * 100 + 5)
  let a := npSet a 9 (npGet a 9 * 0.75 + 0.25)
  let a := npSet a 10 (npGet a 10 * 0.25)
  let a := npSet a 11 (npGet a 11 * 0.125)
  let a := npSet a 12 (npGet a 12 * 3 + 1)
  let a := npSet a 13 (npGet a 13 * 0.02)
  a

/-- Boxcar.prior_transform as seen by the caller (aliased pair). -/
def prior_transform (u : List ℚ) : List ℚ × List ℚ :=
  (prior_transform_run u, prior_transform_run u)

end Boxcar

/-- The Prior Transform as the spec describes it: a fresh output vector
whose coordinate i is the affine image u_i * scale_i + offset_i of the
input coordinate, the input left untouched. -/
def affineSpec (scales offsets u : List ℚ) : List ℚ :=
  (u.zip (scales.zip offsets)).map (fun p => p.1 * p.2.1 + p.2.2)

/-- Scales of Artery.prior_transform_default, per slot. -/
def defaultScales : List ℚ :=
  [60, 60, 60, 20, 30, 9.75, 10, 10, 300, 0.5, 0.25, 0.25, 4, 0.1]

/-- Offsets of Artery.prior_transform_default, per slot. -/
def defaultOffsets : List ℚ :=
  [0, 0, 0, 0, 1, 0.25, -10, -10, 0.01, 0, 0, 0, 0.5, 0]

/-- Scales of Boxcar.prior_transform, per slot. -/
def boxcarScales : List ℚ :=
  [30, 20, 20, 5, 10, 3, 0.05, 0.05, 100, 0.75, 0.25, 0.125, 3, 0.02]

/-- Offsets of Boxcar.prior_transform, per slot. -/
def boxcarOffsets : List ℚ :=
  [5, 5, 5, 0, 0.1, 0.5, -0.025, -0.025, 5, 0.25, 0, 0, 1, 0]

/-- np.max over a 1-D real array, as a list maximum (0 for the empty
array, which never occurs: the curves are evaluated on nonempty grids). -/
def npMax : List ℝ → ℝ
  | [] => 0
  | x :: xs => xs.foldl max x

namespace Artery

/-- Pointwise value, before clipping and renormalization, of the
generalized gamma pulse of Artery.solution_1bolus
(src/Artery.py lines 404-414): with t_ = max(t - t_0, 0) the first clip,
the value is t_ ^ a * exp(-(b * t_) ^ p).  The source evaluates the
powers on complex(t_) and keeps the real part; on these clipped
nonnegative real bases that equals the real power Real.rpow used here. -/
noncomputable def bolus_raw (t_0 a b p t : ℝ) : ℝ :=
  (max (t - t_0) 0) ^ a * Real.exp (-(b * max (t - t_0) 0) ^ p)

/-- Artery.solution_1bolus evaluated at grid point t: the raw pulse,
clipped at 0 (rho.clip(min=0)), divided by np.max of the clipped pulse
over the whole time grid (renormalization to unit peak). -/
noncomputable def solution_1bolus (grid : List ℝ) (t_0 a b p t : ℝ) : ℝ :=
  max (bolus_raw t_0 a b p t) 0 /
    npMax (grid.map (fun s => max (bolus_raw t_0 a b p s) 0))

/-- Pointwise value, before clipping and renormalization, of the rising
exponential of Artery.solution_ss (src/Artery.py lines 450-458):
1 - exp(-g * (t - t0)). -/
noncomputable def ss_raw (t_0 g t : ℝ) : ℝ := 1 - Real.exp (-(g * (t - t_0)))

/-- Artery.solution_ss evaluated at grid point t: the raw rising
exponential, clipped at 0, divided by np.max of the clipped values over
the whole time grid. -/
noncomputable def solution_ss (grid : List ℝ) (t_0 g t : ℝ) : ℝ :=
  max (ss_raw t_0 g t) 0 / npMax (grid.map (fun s => max (ss_raw t_0 g s) 0))

/-- Mixture weight f_1_ of Artery.solution_4bolus
(src/Artery.py line 441). -/
def f_1_4bolus (f_2 f_3 f_ss : ℝ) : ℝ := (1 - f_ss) * (1 - f_2) * (1 - f_3)

/-- Mixture weight f_2_ of Artery.solution_4bolus
(src/Artery.py line 442). -/
def f_2_4bolus (f_2 f_3 : ℝ) : ℝ := f_2 * (1 - f_3)

/-- Mixture weight f_3_ of Artery.solution_4bolus
(src/Artery.py line 443). -/
def f_3_4bolus (f_3 : ℝ) : ℝ := f_3

/-- Mixture weight f_ss_ of Artery.solution_4bolus
(src/Artery.py line 440). -/
def f_ss_4bolus (f_2 f_3 f_ss : ℝ) : ℝ := f_ss * (1 - f_2) * (1 - f_3)

/-- Artery.solution_4bolus (src/Artery.py lines 436-448) at grid point t:
the chained-complement weighted sum of three shifted generalized gamma
pulses (shape exponents floored at 0.25 through max) and the rising
exponential steady state. -/
noncomputable def solution_4bolus (grid : List ℝ)
    (t_0 tau_2 tau_3 a b p dp_2 dp_3 g f_2 f_3 f_ss t : ℝ) : ℝ :=
  f_1_4bolus f_2 f_3 f_ss * solution_1bolus grid t_0 a b p t +
  f_2_4bolus f_2 f_3 * solution_1bolus grid (t_0 + tau_2) a b (max 0.25 (p + dp_2)) t +
  f_3_4bolus f_3 *
    solution_1bolus grid (t_0 + tau_2 + tau_3) a b (max 0.25 (p + dp_2 + dp_3)) t +
  f_ss_4bolus f_2 f_3 f_ss * solution_ss grid t_0 g t

end Artery

/-- Insertion of a (sample, weight) pair into a list sorted by sample
value; helper for the weighted-quantile model. -/
def insertPair (p : ℚ × ℚ) : List (ℚ × ℚ) → List (ℚ × ℚ)
  | [] => [p]
  | q :: qs => if p.1 ≤ q.1 then p :: q :: qs else q :: insertPair p qs

/-- Sort of (sample, weight) pairs by sample value (np.argsort of the
samples applied to samples and weights alike). -/
def sortPairs : List (ℚ × ℚ) → List (ℚ × ℚ)
  | [] => []
  | p :: ps => insertPair p (sortPairs ps)

/-- Walk along the weight-sorted cumulative distribution: return the
first sample whose accumulated weight reaches the target, clamped to the
largest sample if the target is never reached. -/
def wqGo (target : ℚ) : ℚ → List (ℚ × ℚ) → ℚ
  | _, [] => 0
  | acc, (x, w) :: rest =>
      if rest = [] then x
      else if target ≤ acc + w then x
      else wqGo target (acc + w) rest

/-- Modelled from the spec: the external dynesty.utils.quantile that
DynestySolverLegacy.quantile calls per parameter (dynesty is an external
collaborator, not part of src/).  Per the spec it returns the weighted
quantiles of the samples using the importance weights, well defined even
for degenerate weights: all mass on one sample yields that sample for
every percentile.  Modeled as the weighted q-quantile along the
sample-sorted cumulative weight distribution. -/
def wquantile (xs ws : List ℚ) (q : ℚ) : ℚ :=
  wqGo (q * ws.foldr (· + ·) 0) 0 (sortPairs (xs.zip ws))

namespace DynestySolverLegacy

/-- DynestySolverLegacy.quantile (src/DynestySolverLegacy.py lines
88-107): `samples` is res["samples"].T, one list per parameter; for each
parameter i the source computes
ql[i], qm[i], qh[i] = dyutils.quantile(x, [0.025, 0.5, 0.975], weights)
and after the loop returns the triple in the order (qm, ql, qh). -/
def quantile (samples : List (List ℚ)) (weights : List ℚ) :
    List ℚ × List ℚ × List ℚ :=
  let ql := samples.map (fun x => wquantile x weights (25/1000))
  let qm := samples.map (fun x => wquantile x weights (1/2))
  let qh := samples.map (fun x => wquantile x weights (975/1000))
  (qm, ql, qh)

/-- The sampler object used by a run: either reconstructed from a
checkpoint (dynesty.DynamicNestedSampler.restore) carrying the state read
from the file, or freshly constructed, bound to the six arguments of the
dynesty.DynamicNestedSampler call in src/DynestySolverLegacy.py lines
77-82: likelihood function, prior-transform function, dimensionality,
sampling method tag, live-point count, random state. -/
inductive Sampler (L P S : Type) where
  | restored (state : ℕ)
  | fresh (loglike : L) (prior_transform : P) (ndim : ℕ)
      (sample : String) (nlive : ℕ) (rstate : S)
deriving DecidableEq

/-- Modelled from the spec: the external
dynesty.DynamicNestedSampler.restore (dynesty is an external
collaborator, not part of src/).  Per the spec it reconstructs sampler
state from the checkpoint file; a missing checkpoint file is fatal for
the resume request (the error propagates), as is a None path.  `store`
maps file names to stored sampler states. -/
def restore (L P S : Type) (store : String → Option ℕ) :
    Option String → Except PyErr (Sampler L P S)
  | none => .error .typeError
  | some f =>
      match store f with
      | some st => .ok (.restored st)
      | none => .error .fileNotFound

/-- DynestySolverLegacy.run_nested_for_list (src/DynestySolverLegacy.py
lines 60-86), up to the choice of sampler: if ndim is None it defaults to
self.model.ndim; if resume is set the sampler comes from
DynamicNestedSampler.restore(checkpoint_file) and no fresh sampler is
built; otherwise a fresh DynamicNestedSampler is constructed bound to
(mdl.loglike, mdl.prior_transform(), ndim, sample=self.sample,
nlive=self.nlive, rstate=self.rstate).  The subsequent
sampler.run_nested(...) and .results are delegated to the external
sampler; the embedding returns the sampler the run uses. -/
def run_nested_for_list (L P S : Type) (store : String → Option ℕ)
    (mdl_loglike : L) (mdl_prior_transform : P) (mdl_ndim : ℕ)
    (sample : String) (nlive : ℕ) (rstate : S)
    (ndim : Option ℕ) (checkpoint_file : Option String) (resume : Bool) :
    Except PyErr (Sampler L P S) :=
  let n := ndim.getD mdl_ndim
  if resume then restore L P S store checkpoint_file
  else .ok (.fresh mdl_loglike mdl_prior_transform n sample nlive rstate)

end DynestySolverLegacy

/-- Test for a successful Except result. -/
def exceptOk : Except PyErr α → Bool
  | .ok _ => true
  | .error _ => false

/-- Pool.starmap(work, [(tidx, the_data) for tidx in tindices]) in
src/main6.py line 121 and src/main4.py line 76: the multiprocessing pool
returns the worker results re-associated with the submission order of the
inputs, regardless of worker completion order. -/
def starmap (work : ℕ → γ) (tindices : List ℕ) : List γ := tindices.map work

namespace Main6

/-- The aggregation loop of src/main6.py lines 134-149: each package is
processed by the try-block body `body` (dict lookups, evidence and
quantile extraction, signal-model evaluation, residual computation,
modeled as one fallible step appending one row); `except KeyError` logs
and skips that package; an exception of any other class propagates out of
the loop, abandoning the batch. -/
def aggregate (body : γ → Except PyErr β) : List γ → Except PyErr (List β)
  | [] => .ok []
  | p :: ps =>
      match body p with
      | .ok r => (aggregate body ps).map (fun rs => r :: rs)
      | .error .keyError => aggregate body ps
      | .error e => .error e

/-- Fan-out then aggregation of src/main6.py: the parallel map over the
region indices followed by the aggregation loop over the packages. -/
def pipeline (work : ℕ → γ) (body : γ → Except PyErr β)
    (tindices : List ℕ) : Except PyErr (List β) :=
  aggregate body (starmap work tindices)

end Main6

namespace Main4

/-- The aggregation loop of src/main4.py lines 89-101: identical
per-package body, but with no try/except at all — any exception in any
package propagates out of the loop. -/
def aggregate (body : γ → Except PyErr β) : List γ → Except PyErr (List β)
  | [] => .ok []
  | p :: ps =>
      match body p with
      | .ok r => (aggregate body ps).map (fun rs => r :: rs)
      | .error e => .error e

end Main4

/-! Helper lemmas about the float model. -/

theorem pyfloat_nan_add (y : PyFloat) : PyFloat.add .nan y = .nan := by
  cases y <;> rfl

theorem pyfloat_mul_nan (x : PyFloat) : PyFloat.mul x .nan = .nan := by
  cases x <;> rfl

theorem pyfloat_sum_cons (x : PyFloat) (l : List PyFloat) :
    PyFloat.sum (x :: l) = x.add (PyFloat.sum l) := rfl

/-- One residual term of the Gaussian log-likelihood at sigma = 0, after
the scalar broadcast of log(2 pi sigma^2) = -inf, is NaN whatever the
prediction and observation are. -/
theorem resid_add_ninf (x y : PyFloat) :
    (((x.sub y).sq).div ((PyFloat.fin 0).sq)).add .ninf = .nan := by
  have h0 : (PyFloat.fin 0).sq = .fin 0 := by
    simp [PyFloat.sq, PyFloat.mul]
  rw [h0]
  rcases hxy : x.sub y with q | _ | _ | _
  · show ((PyFloat.fin (q * q)).div (.fin 0)).add .ninf = .nan
    rcases eq_or_lt_of_le (mul_self_nonneg q) with h | h
    · rw [← h]
      simp [PyFloat.div, PyFloat.add]
    · simp [PyFloat.div, PyFloat.add, h, h.ne']
  · rfl
  · show ((PyFloat.inf).div (.fin 0)).add .ninf = .nan
    simp [PyFloat.div, PyFloat.add]
  · show ((PyFloat.inf).div (.fin 0)).add .ninf = .nan
    simp [PyFloat.div, PyFloat.add]

/-- The raw Gaussian log-likelihood is NaN whenever sigma = 0 and the
data are nonempty. -/
theorem rawLoglike_sigma_zero (logFin : ℚ → ℚ) (p o : PyFloat)
    (ps os : List PyFloat) :
    Artery.rawLoglike logFin (p :: ps) (o :: os) (.fin 0) = .nan := by
  unfold Artery.rawLoglike
  have hlog : PyFloat.logWith logFin
      (((PyFloat.fin 2).mul (.fin npPi)).mul ((PyFloat.fin 0).sq)) = .ninf := by
    simp [PyFloat.mul, PyFloat.sq, PyFloat.logWith]
  simp only [List.zipWith_cons_cons, List.map_cons, hlog, resid_add_ninf,
    pyfloat_sum_cons, pyfloat_nan_add, pyfloat_mul_nan]

/-- Claim C1 (amended): for Artery.loglike — whose abstract signalmodel
is supplied by the subclass and returns a prediction — the result is
always finite: it equals the raw Gaussian log-likelihood when that value
is finite and the sentinel -1e300 otherwise; in particular sigma = v[-1]
equal to 0 (with nonempty data) forces the sentinel.  The claim as stated
additionally covers Boxcar.loglike, which never returns at all (see the
counterexample and claim C10). -/
theorem artery_loglike_guard (logFin : ℚ → ℚ)
    (sm : List PyFloat → List PyFloat) (rho v : List PyFloat) :
    (Artery.loglike logFin sm rho v).isFinite = true ∧
    Artery.loglike logFin sm rho v =
      (if (Artery.rawLoglike logFin (sm v) rho (lastElem v)).isFinite then
        Artery.rawLoglike logFin (sm v) rho (lastElem v)
      else .fin (-(10 ^ 300 : ℚ))) ∧
    (lastElem v = .fin 0 → sm v ≠ [] → rho ≠ [] →
      Artery.loglike logFin sm rho v = .fin (-(10 ^ 300 : ℚ))) := by
  refine ⟨?_, rfl, ?_⟩
  · unfold Artery.loglike
    cases h : (Artery.rawLoglike logFin (sm v) rho (lastElem v)).isFinite
    · simp [h]
      rfl
    · simp [h]
  · intro hsig hsm hrho
    obtain ⟨p, ps, hp⟩ := List.exists_cons_of_ne_nil hsm
    obtain ⟨o, os, ho⟩ := List.exists_cons_of_ne_nil hrho
    unfold Artery.loglike
    rw [hp, ho, hsig, rawLoglike_sigma_zero]
    rfl

/-- Witness for C1 at a concrete evaluation: a one-point data set with
sigma = 0 yields exactly the sentinel, and the result is finite. -/
theorem artery_loglike_guard_witness :
    (Artery.loglike (fun _ => 0) (fun _ => [.fin 0]) [.fin 1] [.fin 0]).isFinite
      = true ∧
    Artery.loglike (fun _ => 0) (fun _ => [.fin 0]) [.fin 1] [.fin 0]
      = .fin (-(10 ^ 300 : ℚ)) :=
  ⟨(artery_loglike_guard (fun _ => 0) (fun _ => [.fin 0]) [.fin 1] [.fin 0]).1,
   (artery_loglike_guard (fun _ => 0) (fun _ => [.fin 0]) [.fin 1] [.fin 0]).2.2
     rfl (by simp) (by simp)⟩

/-- Counterexample to C1 as stated: Boxcar.loglike (one of the two
functions the claim names) applied to the truths vector of src/Boxcar.py
raises TypeError out of signalmodel, so it does not return the Gaussian
log-likelihood or the sentinel at all. -/
theorem boxcar_loglike_typeerror_cex :
    Boxcar.loglike (fun _ => 0) []
      [.fin 1]
      [.fin 15.7, .fin 8.73, .fin 14.77, .fin 0.29, .fin 3.04, .fin 2.23,
       .fin 0, .fin 0, .fin 53.11, .fin 0.31, .fin 0.1, .fin 0.07,
       .fin 1.98, .fin 0.01]
      = .error .typeError := rfl

/-- Claim C10: for every parameter vector and data, Boxcar.signalmodel
raises TypeError — it passes 13 positional arguments to the inherited
10-parameter Artery.solution_3bolus — and therefore Boxcar.loglike never
reaches its finiteness guard and never returns a value. -/
theorem boxcar_signalmodel_arity_typeerror (logFin : ℚ → ℚ)
    (t_ideal rho v : List PyFloat) :
    Boxcar.signalmodel t_ideal v = .error .typeError ∧
    Boxcar.loglike logFin t_ideal rho v = .error .typeError := by
  constructor
  · simp [Boxcar.signalmodel, Boxcar.signalmodel_args,
      Boxcar.solution_3bolus_paramCount]
  · simp [Boxcar.loglike, Boxcar.signalmodel, Boxcar.signalmodel_args,
      Boxcar.solution_3bolus_paramCount, Bind.bind, Except.bind]

/-! Helper lemmas about the chained-complement mixture weights. -/

theorem f_1_4bolus_mem (f_2 f_3 f_ss : ℝ)
    (h2 : 0 ≤ f_2) (h2' : f_2 ≤ 1) (h3 : 0 ≤ f_3) (h3' : f_3 ≤ 1)
    (hss : 0 ≤ f_ss) (hss' : f_ss ≤ 1) :
    0 ≤ Artery.f_1_4bolus f_2 f_3 f_ss ∧ Artery.f_1_4bolus f_2 f_3 f_ss ≤ 1 := by
  unfold Artery.f_1_4bolus
  have a1 : (0:ℝ) ≤ 1 - f_ss := by linarith
  have a2 : (0:ℝ) ≤ 1 - f_2 := by linarith
  have a3 : (0:ℝ) ≤ 1 - f_3 := by linarith
  constructor
  · positivity
  · exact mul_le_one₀ (mul_le_one₀ (by linarith) a2 (by linarith)) a3 (by linarith)

theorem f_2_4bolus_mem (f_2 f_3 : ℝ)
    (h2 : 0 ≤ f_2) (h2' : f_2 ≤ 1) (h3 : 0 ≤ f_3) (h3' : f_3 ≤ 1) :
    0 ≤ Artery.f_2_4bolus f_2 f_3 ∧ Artery.f_2_4bolus f_2 f_3 ≤ 1 := by
  unfold Artery.f_2_4bolus
  constructor
  · nlinarith
  · nlinarith

theorem f_ss_4bolus_mem (f_2 f_3 f_ss : ℝ)
    (h2 : 0 ≤ f_2) (h2' : f_2 ≤ 1) (h3 : 0 ≤ f_3) (h3' : f_3 ≤ 1)
    (hss : 0 ≤ f_ss) (hss' : f_ss ≤ 1) :
    0 ≤ Artery.f_ss_4bolus f_2 f_3 f_ss ∧ Artery.f_ss_4bolus f_2 f_3 f_ss ≤ 1 := by
  unfold Artery.f_ss_4bolus
  have a2 : (0:ℝ) ≤ 1 - f_2 := by linarith
  have a3 : (0:ℝ) ≤ 1 - f_3 := by linarith
  constructor
  · positivity
  · exact mul_le_one₀ (mul_le_one₀ hss' a2 (by linarith)) a3 (by linarith)

theorem weights4_sum (f_2 f_3 f_ss : ℝ) :
    Artery.f_1_4bolus f_2 f_3 f_ss + Artery.f_2_4bolus f_2 f_3 +
      Artery.f_3_4bolus f_3 + Artery.f_ss_4bolus f_2 f_3 f_ss = 1 := by
  unfold Artery.f_1_4bolus Artery.f_2_4bolus Artery.f_3_4bolus Artery.f_ss_4bolus
  ring

/-- Claim C2: for fractional inputs f_2, f_3, f_ss in [0,1], the four
chained-complement mixture weights of Artery.solution_4bolus each lie in
[0,1] and sum exactly to 1. -/
theorem solution_4bolus_weights (f_2 f_3 f_ss : ℝ)
    (h2 : 0 ≤ f_2) (h2' : f_2 ≤ 1) (h3 : 0 ≤ f_3) (h3' : f_3 ≤ 1)
    (hss : 0 ≤ f_ss) (hss' : f_ss ≤ 1) :
    (0 ≤ Artery.f_1_4bolus f_2 f_3 f_ss ∧ Artery.f_1_4bolus f_2 f_3 f_ss ≤ 1) ∧
    (0 ≤ Artery.f_2_4bolus f_2 f_3 ∧ Artery.f_2_4bolus f_2 f_3 ≤ 1) ∧
    (0 ≤ Artery.f_3_4bolus f_3 ∧ Artery.f_3_4bolus f_3 ≤ 1) ∧
    (0 ≤ Artery.f_ss_4bolus f_2 f_3 f_ss ∧ Artery.f_ss_4bolus f_2 f_3 f_ss ≤ 1) ∧
    Artery.f_1_4bolus f_2 f_3 f_ss + Artery.f_2_4bolus f_2 f_3 +
      Artery.f_3_4bolus f_3 + Artery.f_ss_4bolus f_2 f_3 f_ss = 1 :=
  ⟨f_1_4bolus_mem f_2 f_3 f_ss h2 h2' h3 h3' hss hss',
   f_2_4bolus_mem f_2 f_3 h2 h2' h3 h3',
   ⟨h3, h3'⟩,
   f_ss_4bolus_mem f_2 f_3 f_ss h2 h2' h3 h3' hss hss',
   weights4_sum f_2 f_3 f_ss⟩

/-- Witness for C2 at f_2 = 1/2, f_3 = 1/3, f_ss = 1/4. -/
theorem solution_4bolus_weights_witness :
    (0 ≤ Artery.f_1_4bolus (1/2) (1/3) (1/4) ∧
      Artery.f_1_4bolus (1/2) (1/3) (1/4) ≤ 1) ∧
    (0 ≤ Artery.f_2_4bolus (1/2) (1/3) ∧ Artery.f_2_4bolus (1/2) (1/3) ≤ 1) ∧
    (0 ≤ Artery.f_3_4bolus (1/3) ∧ Artery.f_3_4bolus (1/3) ≤ 1) ∧
    (0 ≤ Artery.f_ss_4bolus (1/2) (1/3) (1/4) ∧
      Artery.f_ss_4bolus (1/2) (1/3) (1/4) ≤ 1) ∧
    Artery.f_1_4bolus (1/2) (1/3) (1/4) + Artery.f_2_4bolus (1/2) (1/3) +
      Artery.f_3_4bolus (1/3) + Artery.f_ss_4bolus (1/2) (1/3) (1/4) = 1 :=
  solution_4bolus_weights (1/2) (1/3) (1/4)
    (by norm_num) (by norm_num) (by norm_num) (by norm_num)
    (by norm_num) (by norm_num)

/-! Helper lemmas about np.max over a grid and renormalized curves. -/

theorem foldl_max_init_le (xs : List ℝ) :
    ∀ init : ℝ, init ≤ xs.foldl max init := by
  induction xs with
  | nil => intro init; exact le_refl _
  | cons y ys ih =>
    intro init
    exact le_trans (le_max_left init y) (ih (max init y))

theorem le_foldl_max_of_mem {x : ℝ} {xs : List ℝ} (h : x ∈ xs) :
    ∀ init : ℝ, x ≤ xs.foldl max init := by
  induction xs with
  | nil => exact absurd h (List.not_mem_nil x)
  | cons y ys ih =>
    intro init
    rcases List.mem_cons.mp h with rfl | hmem
    · exact le_trans (le_max_right init x) (foldl_max_init_le ys (max init x))
    · exact ih hmem (max init y)

theorem le_npMax_of_mem {x : ℝ} {l : List ℝ} (h : x ∈ l) : x ≤ npMax l := by
  cases l with
  | nil => exact absurd h (List.not_mem_nil x)
  | cons y ys =>
    rcases List.mem_cons.mp h with rfl | hmem
    · exact foldl_max_init_le ys x
    · exact le_foldl_max_of_mem hmem y

theorem npMax_pos_of_exists {l : List ℝ} (h : ∃ x ∈ l, 0 < x) :
    0 < npMax l := by
  obtain ⟨x, hx, hpos⟩ := h
  exact lt_of_lt_of_le hpos (le_npMax_of_mem hx)

/-- A curve clipped at 0 and divided by the np.max of its clipped values
over the grid lies in [0, 1] at every grid point, provided the raw curve
is positive somewhere on the grid. -/
theorem clip_norm_bounds (f : ℝ → ℝ) (grid : List ℝ) (t : ℝ)
    (ht : t ∈ grid) (hpos : ∃ s ∈ grid, 0 < f s) :
    0 ≤ max (f t) 0 / npMax (grid.map (fun s => max (f s) 0)) ∧
    max (f t) 0 / npMax (grid.map (fun s => max (f s) 0)) ≤ 1 := by
  have hM : 0 < npMax (grid.map (fun s => max (f s) 0)) := by
    obtain ⟨s, hs, hfs⟩ := hpos
    exact npMax_pos_of_exists
      ⟨max (f s) 0, List.mem_map_of_mem _ hs,
       lt_of_lt_of_le hfs (le_max_left _ _)⟩
  constructor
  · exact div_nonneg (le_max_right _ _) hM.le
  · rw [div_le_one hM]
    exact le_npMax_of_mem (List.mem_map_of_mem _ ht)

/-- A clipped renormalized curve vanishes wherever the raw curve is
nonpositive. -/
theorem clip_norm_zero (f : ℝ → ℝ) (grid : List ℝ) (t : ℝ)
    (h : f t ≤ 0) :
    max (f t) 0 / npMax (grid.map (fun s => max (f s) 0)) = 0 := by
  rw [max_eq_right h, zero_div]

theorem bolus_raw_pos (t_0 a b p t : ℝ)
    (ht : t_0 < t) : 0 < Artery.bolus_raw t_0 a b p t := by
  unfold Artery.bolus_raw
  rw [max_eq_left (by linarith : (0:ℝ) ≤ t - t_0)]
  exact mul_pos (Real.rpow_pos_of_pos (by linarith) a) (Real.exp_pos _)

theorem bolus_raw_zero (t_0 a b p t : ℝ) (ha : a ≠ 0)
    (ht : t ≤ t_0) : Artery.bolus_raw t_0 a b p t = 0 := by
  unfold Artery.bolus_raw
  rw [max_eq_right (by linarith : t - t_0 ≤ 0), Real.zero_rpow ha, zero_mul]

theorem ss_raw_pos (t_0 g t : ℝ) (hg : 0 < g) (ht : t_0 < t) :
    0 < Artery.ss_raw t_0 g t := by
  unfold Artery.ss_raw
  have harg : -(g * (t - t_0)) < 0 := by nlinarith
  have := Real.exp_lt_exp.mpr harg
  rw [Real.exp_zero] at this
  linarith

theorem ss_raw_nonpos (t_0 g t : ℝ) (hg : 0 < g) (ht : t < t_0) :
    Artery.ss_raw t_0 g t ≤ 0 := by
  unfold Artery.ss_raw
  have harg : (0:ℝ) < -(g * (t - t_0)) := by nlinarith
  have := Real.exp_lt_exp.mpr harg
  rw [Real.exp_zero] at this
  linarith

theorem solution_1bolus_bounds (grid : List ℝ) (t_0 a b p t : ℝ)
    (ht : t ∈ grid) (hgrid : ∃ s ∈ grid, t_0 < s) :
    0 ≤ Artery.solution_1bolus grid t_0 a b p t ∧
    Artery.solution_1bolus grid t_0 a b p t ≤ 1 := by
  unfold Artery.solution_1bolus
  apply clip_norm_bounds _ _ _ ht
  obtain ⟨s, hs, hlt⟩ := hgrid
  exact ⟨s, hs, bolus_raw_pos t_0 a b p s hlt⟩

theorem solution_1bolus_zero (grid : List ℝ) (t_0 a b p t : ℝ)
    (ha : a ≠ 0) (ht : t ≤ t_0) :
    Artery.solution_1bolus grid t_0 a b p t = 0 := by
  unfold Artery.solution_1bolus
  exact clip_norm_zero _ _ _ (le_of_eq (bolus_raw_zero t_0 a b p t ha ht))

theorem solution_ss_bounds (grid : List ℝ) (t_0 g t : ℝ) (hg : 0 < g)
    (ht : t ∈ grid) (hgrid : ∃ s ∈ grid, t_0 < s) :
    0 ≤ Artery.solution_ss grid t_0 g t ∧
    Artery.solution_ss grid t_0 g t ≤ 1 := by
  unfold Artery.solution_ss
  apply clip_norm_bounds _ _ _ ht
  obtain ⟨s, hs, hlt⟩ := hgrid
  exact ⟨s, hs, ss_raw_pos t_0 g s hg hlt⟩

theorem solution_ss_zero (grid : List ℝ) (t_0 g t : ℝ) (hg : 0 < g)
    (ht : t < t_0) :
    Artery.solution_ss grid t_0 g t = 0 := by
  unfold Artery.solution_ss
  exact clip_norm_zero _ _ _ (ss_raw_nonpos t_0 g t hg ht)

/-- Claim C3: for a valid parameter vector (fractional weights in [0,1],
positive shape and rate parameters, nonnegative bolus-onset spacings,
nonnegative amplitude) and a time grid reaching past the last bolus
onset (so every component has a nonzero peak to normalize by), the
amplitude-scaled mixture A * solution_4bolus lies in [0, A] at every
grid point, and vanishes at every grid point before t_0. -/
theorem solution_4bolus_bounded (grid : List ℝ)
    (t_0 tau_2 tau_3 a b p dp_2 dp_3 g f_2 f_3 f_ss A t : ℝ)
    (ha : 0 < a) (hg : 0 < g)
    (htau2 : 0 ≤ tau_2) (htau3 : 0 ≤ tau_3)
    (h2 : 0 ≤ f_2) (h2' : f_2 ≤ 1) (h3 : 0 ≤ f_3) (h3' : f_3 ≤ 1)
    (hss : 0 ≤ f_ss) (hss' : f_ss ≤ 1) (hA : 0 ≤ A)
    (ht : t ∈ grid) (hgrid : ∃ s ∈ grid, t_0 + tau_2 + tau_3 < s) :
    0 ≤ A * Artery.solution_4bolus grid t_0 tau_2 tau_3 a b p dp_2 dp_3 g
          f_2 f_3 f_ss t ∧
    A * Artery.solution_4bolus grid t_0 tau_2 tau_3 a b p dp_2 dp_3 g
          f_2 f_3 f_ss t ≤ A ∧
    (t < t_0 →
      A * Artery.solution_4bolus grid t_0 tau_2 tau_3 a b p dp_2 dp_3 g
            f_2 f_3 f_ss t = 0) := by
  obtain ⟨s, hs, hslt⟩ := hgrid
  have hc1 := solution_1bolus_bounds grid t_0 a b p t ht
    ⟨s, hs, by linarith⟩
  have hc2 := solution_1bolus_bounds grid (t_0 + tau_2) a b
    (max 0.25 (p + dp_2)) t ht ⟨s, hs, by linarith⟩
  have hc3 := solution_1bolus_bounds grid (t_0 + tau_2 + tau_3) a b
    (max 0.25 (p + dp_2 + dp_3)) t ht ⟨s, hs, by linarith⟩
  have hc4 := solution_ss_bounds grid t_0 g t hg ht ⟨s, hs, by linarith⟩
  have hw1 := f_1_4bolus_mem f_2 f_3 f_ss h2 h2' h3 h3' hss hss'
  have hw2 := f_2_4bolus_mem f_2 f_3 h2 h2' h3 h3'
  have hw4 := f_ss_4bolus_mem f_2 f_3 f_ss h2 h2' h3 h3' hss hss'
  have hsum := weights4_sum f_2 f_3 f_ss
  have hw3 : 0 ≤ Artery.f_3_4bolus f_3 ∧ Artery.f_3_4bolus f_3 ≤ 1 := ⟨h3, h3'⟩
  have hm0 : 0 ≤ Artery.solution_4bolus grid t_0 tau_2 tau_3 a b p dp_2 dp_3 g
      f_2 f_3 f_ss t := by
    unfold Artery.solution_4bolus
    have e1 := mul_nonneg hw1.1 hc1.1
    have e2 := mul_nonneg hw2.1 hc2.1
    have e3 := mul_nonneg hw3.1 hc3.1
    have e4 := mul_nonneg hw4.1 hc4.1
    linarith
  have hm1 : Artery.solution_4bolus grid t_0 tau_2 tau_3 a b p dp_2 dp_3 g
      f_2 f_3 f_ss t ≤ 1 := by
    unfold Artery.solution_4bolus
    have e1 := mul_le_of_le_one_right hw1.1 hc1.2
    have e2 := mul_le_of_le_one_right hw2.1 hc2.2
    have e3 := mul_le_of_le_one_right hw3.1 hc3.2
    have e4 := mul_le_of_le_one_right hw4.1 hc4.2
    linarith
  refine ⟨mul_nonneg hA hm0, ?_, ?_⟩
  · exact le_trans (mul_le_mul_of_nonneg_left hm1 hA) (le_of_eq (mul_one A))
  · intro htlt
    have z1 := solution_1bolus_zero grid t_0 a b p t ha.ne'
      (le_of_lt htlt)
    have z2 := solution_1bolus_zero grid (t_0 + tau_2) a b
      (max 0.25 (p + dp_2)) t ha.ne' (by linarith : t ≤ t_0 + tau_2)
    have z3 := solution_1bolus_zero grid (t_0 + tau_2 + tau_3) a b
      (max 0.25 (p + dp_2 + dp_3)) t ha.ne'
      (by linarith : t ≤ t_0 + tau_2 + tau_3)
    have z4 := solution_ss_zero grid t_0 g t hg htlt
    unfold Artery.solution_4bolus
    rw [z1, z2, z3, z4]
    ring

/-- Witness for C3 on the grid [0, 100] with t_0 = 1, tau_2 = tau_3 = 1,
a = b = p = 1, dp_2 = dp_3 = 0, g = 1, f_2 = f_3 = f_ss = 1/2, A = 2,
evaluated at the grid point t = 0 < t_0. -/
theorem solution_4bolus_bounded_witness :
    0 ≤ 2 * Artery.solution_4bolus [0, 100] 1 1 1 1 1 1 0 0 1
          (1/2) (1/2) (1/2) 0 ∧
    2 * Artery.solution_4bolus [0, 100] 1 1 1 1 1 1 0 0 1
          (1/2) (1/2) (1/2) 0 ≤ 2 ∧
    ((0:ℝ) < 1 →
      2 * Artery.solution_4bolus [0, 100] 1 1 1 1 1 1 0 0 1
            (1/2) (1/2) (1/2) 0 = 0) :=
  solution_4bolus_bounded [0, 100] 1 1 1 1 1 1 0 0 1 (1/2) (1/2) (1/2) 2 0
    (by norm_num) (by norm_num) (by norm_num) (by norm_num)
    (by norm_num) (by norm_num) (by norm_num) (by norm_num)
    (by norm_num) (by norm_num) (by norm_num)
    (List.mem_cons_self 0 [100])
    ⟨100, List.mem_cons_of_mem 0 (List.mem_cons_self 100 []), by norm_num⟩

/-! Helper lemmas about the weighted-quantile model. -/

theorem insertPair_perm (p : ℚ × ℚ) (l : List (ℚ × ℚ)) :
    (insertPair p l).Perm (p :: l) := by
  induction l with
  | nil => exact List.Perm.refl _
  | cons q qs ih =>
    by_cases h : p.1 ≤ q.1
    · simp only [insertPair, if_pos h]
      exact List.Perm.refl _
    · simp only [insertPair, if_neg h]
      exact (ih.cons q).trans (List.Perm.swap p q qs)

theorem sortPairs_perm (l : List (ℚ × ℚ)) : (sortPairs l).Perm l := by
  induction l with
  | nil => exact List.Perm.refl _
  | cons p ps ih =>
    exact (insertPair_perm p (sortPairs ps)).trans (ih.cons p)

/-- Walking the cumulative weight distribution of a pair list whose only
nonzero-weight entry is (x, W) returns x, for any target in the window
(acc, acc + W]. -/
theorem wqGo_oneMass (x W target : ℚ) :
    ∀ (l : List (ℚ × ℚ)) (acc : ℚ),
      l.filter (fun p => decide (p.2 ≠ 0)) = [(x, W)] →
      acc < target → target ≤ acc + W →
      wqGo target acc l = x := by
  intro l
  induction l with
  | nil =>
    intro acc hfil _ _
    simp [List.filter] at hfil
  | cons hd rest ih =>
    intro acc hfil hacc hT
    obtain ⟨y, w⟩ := hd
    by_cases hrest : rest = []
    · subst hrest
      by_cases hw : w = 0
      · rw [List.filter_cons, if_neg (by simp [hw])] at hfil
        simp [List.filter] at hfil
      · rw [List.filter_cons, if_pos (by simp [hw])] at hfil
        simp only [List.filter_nil] at hfil
        have hhd : (y, w) = (x, W) := (List.cons.inj hfil).1
        simp only [wqGo, if_pos rfl]
        exact congrArg Prod.fst hhd
    · by_cases hw : w = 0
      · subst hw
        rw [List.filter_cons, if_neg (by simp)] at hfil
        have step : wqGo target acc ((y, 0) :: rest) = wqGo target (acc + 0) rest := by
          rw [wqGo, if_neg hrest, if_neg (by rw [add_zero]; exact not_le.mpr hacc)]
        rw [step, add_zero]
        exact ih acc hfil hacc hT
      · rw [List.filter_cons, if_pos (by simp [hw])] at hfil
        have hhd : (y, w) = (x, W) := (List.cons.inj hfil).1
        have hyx : y = x := congrArg Prod.fst hhd
        have hwW : w = W := congrArg Prod.snd hhd
        rw [wqGo, if_neg hrest, if_pos (by rw [hwW]; exact hT)]
        exact hyx

/-- The modelled weighted quantile with all weight mass on one sample
returns that sample, for any percentile in (0, 1]. -/
theorem wquantile_degenerate (xs ws : List ℚ) (xk W q : ℚ)
    (hfil : (xs.zip ws).filter (fun p => decide (p.2 ≠ 0)) = [(xk, W)])
    (htot : ws.foldr (· + ·) 0 = W) (hW : 0 < W)
    (hq0 : 0 < q) (hq1 : q ≤ 1) :
    wquantile xs ws q = xk := by
  unfold wquantile
  rw [htot]
  apply wqGo_oneMass xk W (q * W) (sortPairs (xs.zip ws)) 0
  · have hperm := (sortPairs_perm (xs.zip ws)).filter
      (fun p => decide (p.2 ≠ 0))
    rw [hfil] at hperm
    exact List.perm_singleton.mp hperm
  · exact mul_pos hq0 hW
  · rw [zero_add]
    calc q * W ≤ 1 * W := mul_le_mul_of_nonneg_right hq1 hW.le
    _ = W := one_mul W

/-- Claim C4 (amended): DynestySolverLegacy.quantile returns the
per-parameter weighted quantiles at percentiles 2.5/50/97.5, but ordered
as the triple (median, low, high) — the source returns (qm, ql, qh) —
and with degenerate importance weights (all mass on one sample) every
percentile of every parameter collapses to that sample. -/
theorem quantile_amended :
    (∀ (samples : List (List ℚ)) (ws : List ℚ),
      DynestySolverLegacy.quantile samples ws =
        (samples.map (fun x => wquantile x ws (1/2)),
         samples.map (fun x => wquantile x ws (25/1000)),
         samples.map (fun x => wquantile x ws (975/1000)))) ∧
    (∀ (xs ws : List ℚ) (xk W : ℚ),
      (xs.zip ws).filter (fun p => decide (p.2 ≠ 0)) = [(xk, W)] →
      ws.foldr (· + ·) 0 = W → 0 < W →
      wquantile xs ws (25/1000) = xk ∧ wquantile xs ws (1/2) = xk ∧
        wquantile xs ws (975/1000) = xk) := by
  constructor
  · intro samples ws
    rfl
  · intro xs ws xk W hfil htot hW
    exact ⟨wquantile_degenerate xs ws xk W _ hfil htot hW (by norm_num) (by norm_num),
           wquantile_degenerate xs ws xk W _ hfil htot hW (by norm_num) (by norm_num),
           wquantile_degenerate xs ws xk W _ hfil htot hW (by norm_num) (by norm_num)⟩

/-- Witness for C4 (amended): with samples [5, 7, 9] for one parameter
and all importance weight on the middle sample, all three percentiles
equal 7; and the returned triple for [[1, 2, 3]] with uniform weights is
(median, low, high). -/
theorem quantile_amended_witness :
    (DynestySolverLegacy.quantile [[1, 2, 3]] [1, 1, 1] =
      ([[1, 2, 3]].map (fun x => wquantile x [1, 1, 1] (1/2)),
       [[1, 2, 3]].map (fun x => wquantile x [1, 1, 1] (25/1000)),
       [[1, 2, 3]].map (fun x => wquantile x [1, 1, 1] (975/1000)))) ∧
    (wquantile [5, 7, 9] [0, 1, 0] (25/1000) = 7 ∧
     wquantile [5, 7, 9] [0, 1, 0] (1/2) = 7 ∧
     wquantile [5, 7, 9] [0, 1, 0] (975/1000) = 7) :=
  ⟨quantile_amended.1 [[1, 2, 3]] [1, 1, 1],
   quantile_amended.2 [5, 7, 9] [0, 1, 0] 7 1
     (by norm_num [List.zip, List.zipWith, List.filter]) (by norm_num)
     (by norm_num)⟩

/-- Counterexample to C4 as stated: on one parameter with samples
[1, 2, 3] and uniform weights, the source returns (2, 1, 3) — the order
(median, low, high) — not the ordered triple (low, median, high) =
(1, 2, 3) the claim states. -/
theorem quantile_order_cex :
    DynestySolverLegacy.quantile [[1, 2, 3]] [1, 1, 1] = ([2], [1], [3]) ∧
    DynestySolverLegacy.quantile [[1, 2, 3]] [1, 1, 1] ≠ ([1], [2], [3]) := by
  constructor <;>
    norm_num [DynestySolverLegacy.quantile, wquantile, sortPairs, insertPair,
      wqGo, List.cons_ne_nil]

/-- Claim C5: with resume set, run_nested_for_list takes its sampler
exclusively from DynamicNestedSampler.restore on the checkpoint file — a
successful run always uses a restored sampler, a missing checkpoint file
(or a None path) makes the restore error propagate, and no fresh sampler
is constructed; only with resume unset is a fresh sampler built, bound
to the likelihood, the prior transform, the (defaulted) dimensionality,
the sampling method tag, the live-point count and the random state. -/
theorem run_nested_resume_semantics (L P S : Type)
    (store : String → Option ℕ) (ll : L) (pt : P) (mdl_ndim : ℕ)
    (sample : String) (nlive : ℕ) (rstate : S) (ndim : Option ℕ)
    (cf : Option String) :
    (DynestySolverLegacy.run_nested_for_list L P S store ll pt mdl_ndim
        sample nlive rstate ndim cf true =
      DynestySolverLegacy.restore L P S store cf) ∧
    (∀ smp, DynestySolverLegacy.run_nested_for_list L P S store ll pt mdl_ndim
        sample nlive rstate ndim cf true = .ok smp →
      ∃ st, smp = .restored st) ∧
    (∀ f, cf = some f → store f = none →
      DynestySolverLegacy.run_nested_for_list L P S store ll pt mdl_ndim
        sample nlive rstate ndim cf true = .error .fileNotFound) ∧
    (cf = none →
      DynestySolverLegacy.run_nested_for_list L P S store ll pt mdl_ndim
        sample nlive rstate ndim cf true = .error .typeError) ∧
    (DynestySolverLegacy.run_nested_for_list L P S store ll pt mdl_ndim
        sample nlive rstate ndim cf false =
      .ok (.fresh ll pt (ndim.getD mdl_ndim) sample nlive rstate)) := by
  refine ⟨rfl, ?_, ?_, ?_, rfl⟩
  · intro smp h
    unfold DynestySolverLegacy.run_nested_for_list at h
    simp only [if_pos rfl] at h
    cases cf with
    | none => exact absurd h (by simp [DynestySolverLegacy.restore])
    | some f =>
      cases hst : store f with
      | none =>
        rw [DynestySolverLegacy.restore, hst] at h
        exact absurd h (by simp)
      | some st =>
        rw [DynestySolverLegacy.restore, hst] at h
        exact ⟨st, (Except.ok.inj h).symm⟩
  · intro f hcf hst
    subst hcf
    unfold DynestySolverLegacy.run_nested_for_list
    simp [DynestySolverLegacy.restore, hst]
  · intro hcf
    subst hcf
    rfl

/-- Witness for C5: with an empty checkpoint store, a resume request on
file "ck" fails with the restore error, while a non-resume run builds
the fresh sampler bound to the six configuration values. -/
theorem run_nested_resume_semantics_witness :
    DynestySolverLegacy.run_nested_for_list ℕ ℕ ℕ (fun _ => none) 3 5 14
        "rslice" 1000 916301 none (some "ck") true = .error .fileNotFound ∧
    DynestySolverLegacy.run_nested_for_list ℕ ℕ ℕ (fun _ => none) 3 5 14
        "rslice" 1000 916301 none (some "ck") false =
      .ok (.fresh 3 5 14 "rslice" 1000 916301) :=
  ⟨(run_nested_resume_semantics ℕ ℕ ℕ (fun _ => none) 3 5 14 "rslice" 1000
      916301 none (some "ck")).2.2.1 "ck" rfl rfl,
   (run_nested_resume_semantics ℕ ℕ ℕ (fun _ => none) 3 5 14 "rslice" 1000
      916301 none (some "ck")).2.2.2.2⟩

/-- Claim C6 (amended): in the main6 aggregation loop a region failing
with KeyError — the missing-field case — is caught and skipped and the
bundle of the remaining regions is still assembled (first conjunct); but
a region failing with an exception of any other class propagates out of
the loop (second conjunct), and the main4 loop catches nothing at all
(third conjunct). -/
theorem main6_aggregate_partial_failure :
    (∀ {γ β : Type} (body : γ → Except PyErr β) (l : List γ),
      (∀ p ∈ l, exceptOk (body p) = true ∨ body p = .error .keyError) →
      ∃ rows, Main6.aggregate body l = .ok rows) ∧
    (∀ {γ β : Type} (body : γ → Except PyErr β) (l : List γ),
      (∃ p ∈ l, ∃ e, body p = .error e ∧ e ≠ .keyError) →
      ∃ e2, Main6.aggregate body l = .error e2 ∧ e2 ≠ .keyError) ∧
    (∀ {γ β : Type} (body : γ → Except PyErr β) (l : List γ),
      (∃ p ∈ l, ∃ e, body p = .error e) →
      ∃ e2, Main4.aggregate body l = .error e2) := by
  refine ⟨?_, ?_, ?_⟩
  · intro γ β body l
    induction l with
    | nil => intro _; exact ⟨[], rfl⟩
    | cons p ps ih =>
      intro h
      obtain ⟨rows, hrows⟩ := ih (fun q hq => h q (List.mem_cons_of_mem p hq))
      rcases h p (List.mem_cons_self p ps) with hok | hkey
      · cases hbp : body p with
        | error e => rw [hbp] at hok; simp [exceptOk] at hok
        | ok r =>
          exact ⟨r :: rows, by simp [Main6.aggregate, hbp, hrows, Except.map]⟩
      · exact ⟨rows, by simp [Main6.aggregate, hkey, hrows]⟩
  · intro γ β body l
    induction l with
    | nil => rintro ⟨p, hp, _⟩; exact absurd hp (List.not_mem_nil p)
    | cons p ps ih =>
      rintro ⟨q, hq, e, he, hne⟩
      rcases List.mem_cons.mp hq with rfl | hmem
      · refine ⟨e, ?_, hne⟩
        cases e with
        | keyError => exact absurd rfl hne
        | typeError => simp [Main6.aggregate, he]
        | fileNotFound => simp [Main6.aggregate, he]
        | otherError => simp [Main6.aggregate, he]
      · cases hbp : body p with
        | ok r =>
          obtain ⟨e2, he2, hne2⟩ := ih ⟨q, hmem, e, he, hne⟩
          exact ⟨e2, by simp [Main6.aggregate, hbp, he2, Except.map], hne2⟩
        | error e' =>
          cases e' with
          | keyError =>
            obtain ⟨e2, he2, hne2⟩ := ih ⟨q, hmem, e, he, hne⟩
            exact ⟨e2, by simp [Main6.aggregate, hbp, he2], hne2⟩
          | typeError =>
            exact ⟨.typeError, by simp [Main6.aggregate, hbp], by decide⟩
          | fileNotFound =>
            exact ⟨.fileNotFound, by simp [Main6.aggregate, hbp], by decide⟩
          | otherError =>
            exact ⟨.otherError, by simp [Main6.aggregate, hbp], by decide⟩
  · intro γ β body l
    induction l with
    | nil => rintro ⟨p, hp, _⟩; exact absurd hp (List.not_mem_nil p)
    | cons p ps ih =>
      rintro ⟨q, hq, e, he⟩
      rcases List.mem_cons.mp hq with rfl | hmem
      · exact ⟨e, by simp [Main4.aggregate, he]⟩
      · cases hbp : body p with
        | ok r =>
          obtain ⟨e2, he2⟩ := ih ⟨q, hmem, e, he⟩
          exact ⟨e2, by simp [Main4.aggregate, hbp, he2, Except.map]⟩
        | error e' => exact ⟨e', by simp [Main4.aggregate, hbp]⟩

/-- Witness for C6 (amended): a KeyError region is skipped and the batch
completes; a non-KeyError region aborts main6, and any error aborts
main4. -/
theorem main6_aggregate_partial_failure_witness :
    (∃ rows, Main6.aggregate
      (fun n : ℕ => if n = 1 then Except.error PyErr.keyError else .ok n)
      [0, 1, 2] = .ok rows) ∧
    (∃ e2, Main6.aggregate
      (fun n : ℕ => if n = 1 then Except.error PyErr.otherError else .ok n)
      [0, 1, 2] = .error e2 ∧ e2 ≠ .keyError) ∧
    (∃ e2, Main4.aggregate
      (fun n : ℕ => if n = 1 then Except.error PyErr.otherError else .ok n)
      [0, 1, 2] = .error e2) :=
  ⟨main6_aggregate_partial_failure.1 _ [0, 1, 2]
    (by intro p hp; fin_cases hp
        · exact Or.inl rfl
        · exact Or.inr rfl
        · exact Or.inl rfl),
   main6_aggregate_partial_failure.2.1 _ [0, 1, 2]
    ⟨1, by decide, .otherError, rfl, by decide⟩,
   main6_aggregate_partial_failure.2.2 _ [0, 1, 2]
    ⟨1, by decide, .otherError, rfl⟩⟩

/-- Counterexample to C6 as stated: a single region failing with an
exception that is not a KeyError (here the second of three regions) is
not caught by the main6 loop — the exception propagates out of the
aggregation and the batch bundle is never assembled. -/
theorem main6_aggregate_propagates_cex :
    Main6.aggregate
      (fun n : ℕ => if n = 1 then Except.error PyErr.otherError else .ok n)
      [0, 1, 2] = .error .otherError := rfl

/-- Rows produced by the main6 pipeline are the bodies of the regions
whose processing succeeded, kept in submission order; regions failing
with KeyError are dropped from the row list. -/
theorem aggregate_map_filter {γ β : Type} (work : ℕ → γ)
    (body : γ → Except PyErr β) (f : γ → β) :
    ∀ ts : List ℕ,
      (∀ t ∈ ts, body (work t) = .ok (f (work t)) ∨
        body (work t) = .error .keyError) →
      Main6.aggregate body (ts.map work) =
        .ok ((ts.filter (fun t => exceptOk (body (work t)))).map
          (fun t => f (work t))) := by
  intro ts
  induction ts with
  | nil => intro _; rfl
  | cons t ts ih =>
    intro h
    have hrest := ih (fun q hq => h q (List.mem_cons_of_mem t hq))
    rcases h t (List.mem_cons_self t ts) with hok | hkey
    · rw [List.map_cons, List.filter_cons, if_pos (by rw [hok]; rfl)]
      simp [Main6.aggregate, hok, hrest, Except.map]
    · rw [List.map_cons, List.filter_cons,
        if_neg (by rw [hkey]; simp [exceptOk])]
      simp [Main6.aggregate, hkey, hrest]

/-- Claim C7 (amended): Pool.starmap re-associates worker results with
the submission order, so when every region aggregates successfully row i
of the bundle corresponds to input region i (first conjunct); when some
regions are skipped by the KeyError policy, the rows are the successful
regions in submission order and row indices shift past each skipped
region (second conjunct). -/
theorem pipeline_row_alignment :
    (∀ {γ β : Type} (work : ℕ → γ) (body : γ → Except PyErr β) (f : γ → β)
        (tindices : List ℕ),
      (∀ t ∈ tindices, body (work t) = .ok (f (work t))) →
      Main6.pipeline work body tindices =
        .ok (tindices.map (fun t => f (work t)))) ∧
    (∀ {γ β : Type} (work : ℕ → γ) (body : γ → Except PyErr β) (f : γ → β)
        (tindices : List ℕ),
      (∀ t ∈ tindices, body (work t) = .ok (f (work t)) ∨
        body (work t) = .error .keyError) →
      Main6.pipeline work body tindices =
        .ok ((tindices.filter (fun t => exceptOk (body (work t)))).map
          (fun t => f (work t)))) := by
  constructor
  · intro γ β work body f tindices h
    have h2 := aggregate_map_filter work body f tindices
      (fun t ht => Or.inl (h t ht))
    have hfil : tindices.filter (fun t => exceptOk (body (work t))) =
        tindices :=
      List.filter_eq_self.mpr (fun t ht => by rw [h t ht]; rfl)
    rw [Main6.pipeline, starmap, h2, hfil]
  · intro γ β work body f tindices h
    rw [Main6.pipeline, starmap, aggregate_map_filter work body f tindices h]

/-- Witness for C7 (amended): an all-success batch over regions 0, 1, 2
yields exactly the row list [0, 1, 2], row i holding region i. -/
theorem pipeline_row_alignment_witness :
    Main6.pipeline (fun n => n) (fun n : ℕ => Except.ok n) [0, 1, 2] =
      .ok [0, 1, 2] :=
  pipeline_row_alignment.1 (fun n => n) (fun n => Except.ok n) (fun n => n)
    [0, 1, 2] (fun _ _ => rfl)

/-- Counterexample to C7 as stated: with regions 0, 1, 2 and region 1
skipped by the KeyError policy, the assembled bundle is [0, 2]; its row
at index 1 holds region 2, not region 1, so row i no longer corresponds
to input region i in a batch with a skipped region. -/
theorem pipeline_row_misalignment_cex :
    Main6.pipeline (fun n => n)
      (fun n : ℕ => if n = 1 then Except.error PyErr.keyError else .ok n)
      [0, 1, 2] = .ok [0, 2] ∧
    ([0, 2].getD 1 0 ≠ 1) :=
  ⟨rfl, by decide⟩

set_option maxHeartbeats 1000000 in
/-- Claim C8 (amended): the prior transforms do apply the documented
per-slot affine map — each output slot depends only on the original
input slot, read before it is overwritten — but they do so in place:
v = u aliases the input array, so the returned vector and the caller's
array after the call are one and the same (mutated) buffer, not a fresh
vector with the input left unchanged. -/
theorem prior_transform_inplace_affine
    (a0 a1 a2 a3 a4 a5 a6 a7 a8 a9 a10 a11 a12 a13 : ℚ) :
    Artery.prior_transform_default
        [a0, a1, a2, a3, a4, a5, a6, a7, a8, a9, a10, a11, a12, a13] =
      (affineSpec defaultScales defaultOffsets
        [a0, a1, a2, a3, a4, a5, a6, a7, a8, a9, a10, a11, a12, a13],
       affineSpec defaultScales defaultOffsets
        [a0, a1, a2, a3, a4, a5, a6, a7, a8, a9, a10, a11, a12, a13]) ∧
    Boxcar.prior_transform
        [a0, a1, a2, a3, a4, a5, a6, a7, a8, a9, a10, a11, a12, a13] =
      (affineSpec boxcarScales boxcarOffsets
        [a0, a1, a2, a3, a4, a5, a6, a7, a8, a9, a10, a11, a12, a13],
       affineSpec boxcarScales boxcarOffsets
        [a0, a1, a2, a3, a4, a5, a6, a7, a8, a9, a10, a11, a12, a13]) := by
  have h1 : Artery.prior_transform_default_run
      [a0, a1, a2, a3, a4, a5, a6, a7, a8, a9, a10, a11, a12, a13] =
      [a0 * 60, a1 * 60, a2 * 60, a3 * 20, a4 * 30 + 1, a5 * 9.75 + 0.25,
       a6 * 10 - 10, a7 * 10 - 10, a8 * 300 + 0.01, a9 * 0.5, a10 * 0.25,
       a11 * 0.25, a12 * 4 + 0.5, a13 * Artery.sigma] := rfl
  have h2 : affineSpec defaultScales defaultOffsets
      [a0, a1, a2, a3, a4, a5, a6, a7, a8, a9, a10, a11, a12, a13] =
      [a0 * 60, a1 * 60, a2 * 60, a3 * 20, a4 * 30 + 1, a5 * 9.75 + 0.25,
       a6 * 10 - 10, a7 * 10 - 10, a8 * 300 + 0.01, a9 * 0.5, a10 * 0.25,
       a11 * 0.25, a12 * 4 + 0.5, a13 * Artery.sigma] := by
    simp [affineSpec, defaultScales, defaultOffsets, Artery.sigma]
    norm_num [sub_eq_add_neg]
  have h3 : Boxcar.prior_transform_run
      [a0, a1, a2, a3, a4, a5, a6, a7, a8, a9, a10, a11, a12, a13] =
      [a0 * 30 + 5, a1 * 20 + 5, a2 * 20 + 5, a3 * 5, a4 * 10 + 0.1,
       a5 * 3 + 0.5, a6 * 0.05 - 0.025, a7 * 0.05 - 0.025, a8 * 100 + 5,
       a9 * 0.75 + 0.25, a10 * 0.25, a11 * 0.125, a12 * 3 + 1,
       a13 * 0.02] := rfl
  have h4 : affineSpec boxcarScales boxcarOffsets
      [a0, a1, a2, a3, a4, a5, a6, a7, a8, a9, a10, a11, a12, a13] =
      [a0 * 30 + 5, a1 * 20 + 5, a2 * 20 + 5, a3 * 5, a4 * 10 + 0.1,
       a5 * 3 + 0.5, a6 * 0.05 - 0.025, a7 * 0.05 - 0.025, a8 * 100 + 5,
       a9 * 0.75 + 0.25, a10 * 0.25, a11 * 0.125, a12 * 3 + 1,
       a13 * 0.02] := by
    simp [affineSpec, boxcarScales, boxcarOffsets]
    norm_num [sub_eq_add_neg]
  constructor
  · show (Artery.prior_transform_default_run _,
      Artery.prior_transform_default_run _) = _
    rw [h1, h2]
  · show (Boxcar.prior_transform_run _, Boxcar.prior_transform_run _) = _
    rw [h3, h4]

/-- Counterexample to C8 as stated: called on the all-1/2 hypercube
vector, Artery.prior_transform_default (and likewise Boxcar's transform)
leaves the caller's array changed — it equals the returned vector, the
shared mutated buffer — rather than unchanged. -/
theorem prior_transform_mutates_cex :
    ((Artery.prior_transform_default (List.replicate 14 (1/2))).2 ≠
      List.replicate 14 (1/2)) ∧
    ((Artery.prior_transform_default (List.replicate 14 (1/2))).2 =
      (Artery.prior_transform_default (List.replicate 14 (1/2))).1) ∧
    ((Boxcar.prior_transform (List.replicate 14 (1/2))).2 ≠
      List.replicate 14 (1/2)) := by
  refine ⟨?_, rfl, ?_⟩
  · intro h
    have h0 : ((Artery.prior_transform_default
        (List.replicate 14 (1/2))).2).getD 0 0 = (1/2 : ℚ) := by
      rw [h]; rfl
    norm_num [Artery.prior_transform_default,
      Artery.prior_transform_default_run, npSet, npGet] at h0
  · intro h
    have h0 : ((Boxcar.prior_transform
        (List.replicate 14 (1/2))).2).getD 0 0 = (1/2 : ℚ) := by
      rw [h]; rfl
    norm_num [Boxcar.prior_transform, Boxcar.prior_transform_run,
      npSet, npGet] at h0

/-- Claim C9: the tracer dispatch of Artery.prior_transform is a total
function of the tag string that never raises: "co" and "oc" select the
co table, "oo" selects the oo table, and every other string — known
tracer or not — falls back to the default table. -/
theorem prior_transform_dispatch_total :
    Artery.prior_transform "co" = Artery.prior_transform_co ∧
    Artery.prior_transform "oc" = Artery.prior_transform_co ∧
    Artery.prior_transform "oo" = Artery.prior_transform_oo ∧
    (∀ s : String, s ≠ "co" → s ≠ "oc" → s ≠ "oo" →
      Artery.prior_transform s = Artery.prior_transform_default) := by
  refine ⟨rfl, rfl, rfl, ?_⟩
  intro s h1 h2 h3
  simp [Artery.prior_transform, h1, h2, h3]

/-- Witness for C9: the tag "ho" (a known tracer with no dedicated
table) and the unknown tag "xx" both dispatch to the default table. -/
theorem prior_transform_dispatch_total_witness :
    Artery.prior_transform "ho" = Artery.prior_transform_default ∧
    Artery.prior_transform "xx" = Artery.prior_transform_default :=
  ⟨prior_transform_dispatch_total.2.2.2 "ho"
     (by decide) (by decide) (by decide),
   prior_transform_dispatch_total.2.2.2 "xx"
     (by decide) (by decide) (by decide)⟩
